import Mathlib

/-!
Verification of the IndexedDB-backed channels event model of the
`elixxir/xxdk-WASM` repository.

Shallow embedding notes:

* Byte slices (`[]byte`) are modelled as `List Nat`.  All IndexedDB keys
  derived from byte slices go through base64 (`impl.EncodeBytes`,
  `json.Marshal` of `[]byte`), which is injective, so keys are modelled
  directly by the byte lists themselves.
* The `Message`/`Channel` records of the `indexedDb/impl/channels` package
  are reconstructed from their uses in `callbacks.go` (`buildMessage`,
  `updateMessage`, `GetMessage`, `msgIDLookup`): the model source file of
  that package is not part of the source tree, but every field and its type
  is determined by those uses.
* The IndexedDB substrate (`impl.Put`, `impl.Get`, `impl.GetIndex`,
  `impl.Delete`, cursor deletion) is modelled as a pure state-passing store:
  a list of rows plus an auto-increment counter (IndexedDB auto-increment
  keys start at 1), with the unique secondary index on the protocol message
  identifier enforced exactly as IndexedDB enforces it (a `put` that would
  produce two rows with the same unique-index value aborts with a
  `ConstraintError` and changes nothing).  Environmental failures
  (transaction creation/abort) are modelled by explicit boolean fault
  parameters threaded through each operation.
* `time.Time` is modelled as `Int` (unix nanoseconds), `time.Duration` as
  `Int`; the lease string written by `strconv.FormatInt(int64(lease), 10)`
  and read back by `strconv.ParseInt(s, 10, 64)` is modelled as `List Char`
  with an executable decimal formatter and parser (`formatInt`,
  `parseIntChars`).
-/

namespace XxdkWasm

/-- Byte slices (`[]byte`) as lists of byte values. -/
abbrev Bytes := List Nat

/-! ### Decimal formatting and parsing (`strconv.FormatInt` / `ParseInt`)

The stored lease is a Go string produced by `strconv.FormatInt(int64, 10)`
and read back with `strconv.ParseInt(s, 10, 64)`. Strings are modelled as
`List Char` with an executable decimal formatter/parser mirroring those two
functions (base 10, optional leading minus sign, error on any non-digit). -/

/-- The decimal digit character for `n < 10`. -/
def digitChar (n : Nat) : Char := Char.ofNat (48 + n)

/-- Decimal digits of `n`, most significant first (fuel-structured so it
computes in the kernel; `fuel ≥ 1` suffices for `n < 10`, `fuel ≥ n + 1`
always suffices). -/
def formatNatFrom (fuel n : Nat) : List Char :=
  match fuel with
  | 0 => []
  | fuel + 1 =>
    if n < 10 then [digitChar n]
    else formatNatFrom fuel (n / 10) ++ [digitChar (n % 10)]

/-- Model of `strconv.FormatInt(i, 10)`. -/
def formatInt (i : Int) : List Char :=
  if i < 0 then '-' :: formatNatFrom (i.natAbs + 1) i.natAbs
  else formatNatFrom (i.natAbs + 1) i.natAbs

/-- Whether a character is a decimal digit. -/
def isDigitChar (c : Char) : Bool := 48 ≤ c.toNat && c.toNat ≤ 57

/-- Parse a non-empty all-digit character list as a natural number. -/
def parseNatChars (l : List Char) : Option Nat :=
  if l ≠ [] && l.all isDigitChar then
    some (l.foldl (fun acc c => acc * 10 + (c.toNat - 48)) 0)
  else none

/-- Model of `strconv.ParseInt(s, 10, 64)` restricted to the shapes `FormatInt`
produces: an optional leading minus sign followed by decimal digits;
anything else is a parse error (`none`). -/
def parseIntChars (l : List Char) : Option Int :=
  match l with
  | '-' :: rest => (parseNatChars rest).map (fun n => -(n : Int))
  | _ => (parseNatChars l).map (fun n => (n : Int))

/-- The `Message` row of the channels IndexedDB store, reconstructed from its
uses in `callbacks.go` (`buildMessage` sets every field except `id`;
`receiveHelper` deletes the `id` key on insert; `GetMessage` reads all of
them back). `lease` is stored as the decimal string produced by
`strconv.FormatInt`. -/
structure Message where
  id : Nat
  messageID : Bytes
  nickname : String
  channelID : Bytes
  parentMessageID : Option Bytes
  timestamp : Int
  lease : List Char
  status : Nat
  hidden : Bool
  pinned : Bool
  text : Bytes
  mtype : Nat
  round : Nat
  pubkey : Bytes
  dmToken : Nat
  codesetVersion : Nat
deriving DecidableEq, Repr

/-- The `Channel` row stored by `JoinChannel`. -/
structure Channel where
  id : Bytes
  name : String
  description : String
deriving DecidableEq, Repr

/-- The state of the two IndexedDB object stores used by the channels event
model, together with the auto-increment counter of the `messages` store
(IndexedDB auto-increment key generators start at 1). -/
structure DB where
  channels : List Channel
  messages : List Message
  nextId : Nat
deriving DecidableEq, Repr

/-- A freshly created database: both stores empty, key generator at 1. -/
def emptyDB : DB := { channels := [], messages := [], nextId := 1 }

/-- The error outcomes surfaced by the store helpers, mirroring the distinct
error strings built in `callbacks.go` and `impl/utils.go`. -/
inductive DbErr where
  /-- Error `"Unable to put Message: ..."`, the non-constraint branch of
  `receiveHelper`. -/
  | putFailed
  /-- Error `"uuid lookup failure: ..."` in `receiveHelper`. -/
  | lookupFailed
  /-- any environmental failure inside `Get`/`GetIndex` (transaction,
  object store, index, await). -/
  | backend
  /-- Error `ErrDoesNotExist` (`"result is undefined"`) produced by `Get` and
  `GetIndex` when the awaited result is undefined. -/
  | doesNotExist
  /-- Error `"no message for ... found"` produced by the undefined-result branch of
  `msgIDLookup`. -/
  | noMessageFound
  /-- Error of `strconv.ParseInt` on the stored lease in `GetMessage`. -/
  | leaseParse
deriving DecidableEq, Repr

/-- Outcome of an IndexedDB `put` on the `messages` store. -/
inductive PutOutcome where
  /-- Success; `key` is the primary key of the written row (the value of the
  resolved put request). -/
  | ok (key : Nat)
  /-- Outcome `ConstraintError`: the unique index on the protocol message identifier
  was violated (`impl.ErrUniqueConstraint`). -/
  | uniqueErr
  /-- any other put failure (transaction abort and the like), injected by the
  `putFail` fault parameter. -/
  | otherErr
deriving DecidableEq, Repr

/-- IndexedDB `put` on the `messages` object store, which carries a unique
index on the `message_id` field. With `isUpdate = true` the record keeps its
primary key (replace-or-insert at that key); with `isUpdate = false` the
primary key was deleted from the record (`messageObj.Delete("id")` in
`receiveHelper`) so the auto-increment generator assigns the next key.
A put that would leave two distinct rows with the same protocol message
identifier aborts with `ConstraintError` and changes nothing. The `putFail`
flag injects an environmental failure. -/
def putMessage (db : DB) (m : Message) (isUpdate : Bool) (putFail : Bool) :
    DB × PutOutcome :=
  if putFail then (db, .otherErr)
  else if isUpdate then
    if db.messages.any (fun r => r.messageID == m.messageID && r.id != m.id)
    then (db, .uniqueErr)
    else ({ db with
            messages := db.messages.filter (fun r => r.id != m.id) ++ [m],
            nextId := max db.nextId (m.id + 1) },
          .ok m.id)
  else
    if db.messages.any (fun r => r.messageID == m.messageID)
    then (db, .uniqueErr)
    else ({ db with
            messages := db.messages ++ [{ m with id := db.nextId }],
            nextId := db.nextId + 1 },
          .ok db.nextId)

/-- Primary-key lookup in the `messages` store. -/
def getById (db : DB) (key : Nat) : Option Message :=
  db.messages.find? (fun r => r.id == key)

/-- Secondary-index lookup on the protocol message identifier
(`messageStoreMessageIndex`): IndexedDB `index.get` returns the first row in
primary-key order whose index value matches; since the index is unique there
is at most one. -/
def getByMessageID (db : DB) (mid : Bytes) : Option Message :=
  db.messages.find? (fun r => r.messageID == mid)

/-- Model of `impl.Get` on the `messages` store: awaits the get request; an
environmental failure (`getFail`) is an error, an undefined result is turned
into the `ErrDoesNotExist` error, and otherwise the (defined) value is
returned. The `Option` in the result is the JavaScript value that may be
undefined (`none`). -/
def rawGet (db : DB) (key : Nat) (getFail : Bool) :
    Except DbErr (Option Message) :=
  if getFail then .error .backend
  else
    match getById db key with
    | none => .error .doesNotExist
    | some r => .ok (some r)

/-- Model of `impl.GetIndex` on the `messages` store's protocol-message-identifier
index, with the same undefined-to-error conversion as `rawGet`. -/
def rawGetIndex (db : DB) (mid : Bytes) (getFail : Bool) :
    Except DbErr (Option Message) :=
  if getFail then .error .backend
  else
    match getByMessageID db mid with
    | none => .error .doesNotExist
    | some r => .ok (some r)

/-- Model of `wasmModel.msgIDLookup`: `GetIndex` by protocol message identifier; a
returned error propagates, an undefined result becomes the
`"no message for ... found"` error, otherwise the row is decoded and
returned. -/
def msgIDLookup (db : DB) (mid : Bytes) (getFail : Bool) :
    Except DbErr Message :=
  match rawGetIndex db mid getFail with
  | .error e => .error e
  | .ok none => .error .noMessageFound
  | .ok (some r) => .ok r

/-- Model of `wasmModel.receiveHelper`: put the row (inserting or updating); a
non-constraint put error is returned as-is; on a `ConstraintError` the result
of the put request is undefined, so the fall-through path looks the row up by
protocol message identifier and returns the existing row's numeric
identifier when the lookup succeeds with a nonzero identifier, and the
`"uuid lookup failure"` error otherwise. -/
def receiveHelper (db : DB) (nm : Message) (isUpdate : Bool)
    (putFail getFail : Bool) : DB × Except DbErr Nat :=
  match putMessage db nm isUpdate putFail with
  | (db1, .otherErr) => (db1, .error .putFailed)
  | (db1, .uniqueErr) =>
    match msgIDLookup db1 nm.messageID getFail with
    | .ok msg => if msg.id ≠ 0 then (db1, .ok msg.id)
                 else (db1, .error .lookupFailed)
    | .error _ => (db1, .error .lookupFailed)
  | (db1, .ok key) => (db1, .ok key)

/-- Model of `buildMessage`: converts the event-model inputs into a `Message` row.
The `id` field is left at 0, matching the Go zero value of the unset `ID`
(inserts delete the key so the store assigns it). `lease` is formatted as a
decimal string. -/
def buildMessage (channelID messageID : Bytes) (parentID : Option Bytes)
    (nickname : String) (text : Bytes) (pubKey : Bytes)
    (dmToken codeset : Nat) (timestamp lease : Int) (round : Nat)
    (mType : Nat) (pinned hidden : Bool) (status : Nat) : Message :=
  { id := 0
    messageID := messageID
    nickname := nickname
    channelID := channelID
    parentMessageID := parentID
    timestamp := timestamp
    lease := formatInt lease
    status := status
    hidden := hidden
    pinned := pinned
    text := text
    mtype := mType
    round := round
    pubkey := pubKey
    dmToken := dmToken
    codesetVersion := codeset }

/-- Well-formedness of a database state, as maintained by the store: the key
generator is at least 1, every row's key is a previously generated key
(nonzero and below the generator), and both the primary key and the
unique-indexed protocol message identifier are pairwise distinct. -/
def WF (db : DB) : Prop :=
  1 ≤ db.nextId ∧
  (∀ r ∈ db.messages, 1 ≤ r.id ∧ r.id < db.nextId) ∧
  db.messages.Pairwise (fun a b => a.id ≠ b.id ∧ a.messageID ≠ b.messageID)

instance (db : DB) : Decidable (WF db) := by
  unfold WF; infer_instance

/-- A "message received" notification handed to the registered callback
(`receivedMessageCB`): the numeric identifier, the channel identifier, and
the update flag. Dispatch in the Go source is `go w.receivedMessageCB(...)`
(fire-and-forget); the model records the emitted notifications of one
operation as a list. -/
structure Event where
  uuid : Nat
  channelID : Bytes
  update : Bool
deriving DecidableEq, Repr

/-- An optional at-rest cipher: `none` models a `nil` cipher (plaintext at
rest); `some enc` models a configured cipher whose `Encrypt` is `enc`, with
`enc b = none` an encryption failure. -/
abbrev Cipher := Option (Bytes → Option Bytes)

/-- The result of one event-model receive operation: the new store state,
the returned numeric identifier (`uint64`, 0 on failure), and the
notifications dispatched during the call. -/
structure ReceiveResult where
  db : DB
  uuid : Nat
  events : List Event
deriving Repr

/-- Model of `wasmModel.ReceiveMessage`: encrypt the text when a cipher is configured
(returning 0 with no write and no notification on encryption failure), build
the row with `pinned = false` and the given `hidden`, insert it via
`receiveHelper` (`isUpdate = false`), and dispatch one "message received"
notification with the returned identifier — the dispatch is unconditional:
it happens whether or not the write succeeded (on failure the identifier
is 0). -/
def ReceiveMessage (db : DB) (cipher : Cipher) (channelID messageID : Bytes)
    (nickname : String) (text : Bytes) (pubKey : Bytes)
    (dmToken codeset : Nat) (timestamp lease : Int) (round : Nat)
    (mType : Nat) (status : Nat) (hidden : Bool)
    (putFail getFail : Bool) : ReceiveResult :=
  let textRes : Option Bytes :=
    match cipher with
    | none => some text
    | some enc => enc text
  match textRes with
  | none => ⟨db, 0, []⟩
  | some textBytes =>
    let msgToInsert := buildMessage channelID messageID none nickname
      textBytes pubKey dmToken codeset timestamp lease round mType
      false hidden status
    match receiveHelper db msgToInsert false putFail getFail with
    | (db1, .ok u) => ⟨db1, u, [⟨u, channelID, false⟩]⟩
    | (db1, .error _) => ⟨db1, 0, [⟨0, channelID, false⟩]⟩

/-- Model of `wasmModel.ReceiveReply`: like `ReceiveMessage` with the reply target as
parent. The Go call site passes its arguments to `buildMessage` as
`..., mType, hidden, false, status` against the parameter list
`..., mType, pinned, hidden, status`: the incoming `hidden` flag lands in the
`pinned` column and the stored `hidden` is `false`. The model reproduces
this argument order exactly. -/
def ReceiveReply (db : DB) (cipher : Cipher)
    (channelID messageID replyTo : Bytes) (nickname : String) (text : Bytes)
    (pubKey : Bytes) (dmToken codeset : Nat) (timestamp lease : Int)
    (round : Nat) (mType : Nat) (status : Nat) (hidden : Bool)
    (putFail getFail : Bool) : ReceiveResult :=
  let textRes : Option Bytes :=
    match cipher with
    | none => some text
    | some enc => enc text
  match textRes with
  | none => ⟨db, 0, []⟩
  | some textBytes =>
    let msgToInsert := buildMessage channelID messageID (some replyTo)
      nickname textBytes pubKey dmToken codeset timestamp lease round mType
      hidden false status
    match receiveHelper db msgToInsert false putFail getFail with
    | (db1, .ok u) => ⟨db1, u, [⟨u, channelID, false⟩]⟩
    | (db1, .error _) => ⟨db1, 0, [⟨0, channelID, false⟩]⟩

/-- Model of `wasmModel.ReceiveReaction`: like `ReceiveMessage` with the reaction
target as parent (`pinned = false`, `hidden` as given). -/
def ReceiveReaction (db : DB) (cipher : Cipher)
    (channelID messageID reactionTo : Bytes) (nickname : String)
    (reaction : Bytes) (pubKey : Bytes) (dmToken codeset : Nat)
    (timestamp lease : Int) (round : Nat) (mType : Nat) (status : Nat)
    (hidden : Bool) (putFail getFail : Bool) : ReceiveResult :=
  let textRes : Option Bytes :=
    match cipher with
    | none => some reaction
    | some enc => enc reaction
  match textRes with
  | none => ⟨db, 0, []⟩
  | some textBytes =>
    let msgToInsert := buildMessage channelID messageID (some reactionTo)
      nickname textBytes pubKey dmToken codeset timestamp lease round mType
      false hidden status
    match receiveHelper db msgToInsert false putFail getFail with
    | (db1, .ok u) => ⟨db1, u, [⟨u, channelID, false⟩]⟩
    | (db1, .error _) => ⟨db1, 0, [⟨0, channelID, false⟩]⟩

/-- The nillable patch handed to the update operations: each field is
independently present (`some`) or absent (`none`, leave unchanged). -/
structure Patch where
  messageID : Option Bytes := none
  timestamp : Option Int := none
  round : Option Nat := none
  pinned : Option Bool := none
  hidden : Option Bool := none
  status : Option Nat := none
deriving DecidableEq, Repr

/-- The field assignments of `wasmModel.updateMessage`: apply exactly the
present patch fields to the current row. -/
def applyPatch (m : Message) (p : Patch) : Message :=
  { m with
    status := p.status.getD m.status
    messageID := p.messageID.getD m.messageID
    round := p.round.getD m.round
    timestamp := p.timestamp.getD m.timestamp
    pinned := p.pinned.getD m.pinned
    hidden := p.hidden.getD m.hidden }

/-- Model of `wasmModel.updateMessage`: decode the current row, apply the present
patch fields, store it via `receiveHelper` (`isUpdate = true`, primary key
retained), and on success dispatch one "message received" notification with
the update flag set; on failure return the error and dispatch nothing. -/
def updateMessage (db : DB) (currentMsg : Message) (p : Patch)
    (putFail getFail : Bool) : DB × Except DbErr Nat × List Event :=
  let newMessage := applyPatch currentMsg p
  match receiveHelper db newMessage true putFail getFail with
  | (db1, .ok u) => (db1, .ok u, [⟨u, newMessage.channelID, true⟩])
  | (db1, .error e) => (db1, .error e, [])

/-- Model of `wasmModel.UpdateFromUUID`: read the current row by primary key with
`impl.Get` (returning with no change on a read failure — the row-absent case
is `ErrDoesNotExist`), then run `updateMessage` on it. The Go function
returns nothing; the model returns the new state and the dispatched
notifications. `getFail` faults the initial read, `putFail`/`getFail2` fault
the write and the duplicate-lookup inside `updateMessage`. -/
def UpdateFromUUID (db : DB) (uuid : Nat) (p : Patch)
    (getFail putFail getFail2 : Bool) : DB × List Event :=
  match rawGet db uuid getFail with
  | .error _ => (db, [])
  | .ok none => (db, [])
  | .ok (some currentMsg) =>
    let (db1, _, evs) := updateMessage db currentMsg p putFail getFail2
    (db1, evs)

/-- Model of `wasmModel.UpdateFromMessageID`: read the current row through the
protocol-message-identifier index with `impl.GetIndex` (returning 0 with no
change on failure), then run `updateMessage` with the looked-up message
identifier itself as the `messageID` patch field, returning the numeric
identifier. -/
def UpdateFromMessageID (db : DB) (mid : Bytes) (p : Patch)
    (getFail putFail getFail2 : Bool) : DB × Nat × List Event :=
  match rawGetIndex db mid getFail with
  | .error _ => (db, 0, [])
  | .ok none => (db, 0, [])
  | .ok (some currentMsg) =>
    match updateMessage db currentMsg { p with messageID := some mid }
        putFail getFail2 with
    | (db1, .ok u, evs) => (db1, u, evs)
    | (db1, .error _, evs) => (db1, 0, evs)

/-- The caller-visible record returned by `GetMessage`
(`channels.ModelMessage`), with the fields `GetMessage` populates. -/
structure ModelMessage where
  uuid : Nat
  nickname : String
  messageID : Bytes
  channelID : Bytes
  parentMessageID : Option Bytes
  timestamp : Int
  lease : Int
  status : Nat
  hidden : Bool
  pinned : Bool
  content : Bytes
  mtype : Nat
  round : Nat
  pubKey : Bytes
  codesetVersion : Nat
deriving DecidableEq, Repr

/-- The lease recovery of `GetMessage`: a non-empty stored lease string is
parsed with `strconv.ParseInt` (an unparsable string is an error), an empty
one yields a zero duration. -/
def parseLease (s : List Char) : Option Int :=
  if s.length > 0 then parseIntChars s else some 0

/-- Model of `wasmModel.GetMessage`: look the row up by protocol message identifier
via `msgIDLookup`, propagate its error, and otherwise rebuild the
caller-visible record from the stored row (the returned `messageID` is the
queried one). -/
def GetMessage (db : DB) (mid : Bytes) (getFail : Bool) :
    Except DbErr ModelMessage :=
  match msgIDLookup db mid getFail with
  | .error e => .error e
  | .ok r =>
    match parseLease r.lease with
    | none => .error .leaseParse
    | some l =>
      .ok { uuid := r.id
            nickname := r.nickname
            messageID := mid
            channelID := r.channelID
            parentMessageID := r.parentMessageID
            timestamp := r.timestamp
            lease := l
            status := r.status
            hidden := r.hidden
            pinned := r.pinned
            content := r.text
            mtype := r.mtype
            round := r.round
            pubKey := r.pubkey
            codesetVersion := r.codesetVersion }

/-- The environmental outcome of the two deletion steps of `LeaveChannel`:
both succeed, the channel-row deletion fails, or the cursor-driven message
deletion fails. -/
inductive LeaveFault where
  | ok
  | chanDeleteFail
  | msgDeleteFail
deriving DecidableEq, Repr

/-- Model of `wasmModel.LeaveChannel`: delete the channel row by primary key; if that
fails, return at once (the cascade is not attempted). Otherwise delete, via
a cursor over the channel secondary index, every message row whose channel
identifier equals the given one (`deleteMsgByChannel`); if opening the
cursor fails no message row is touched. -/
def LeaveChannel (db : DB) (channelID : Bytes) (fault : LeaveFault) : DB :=
  match fault with
  | .chanDeleteFail => db
  | .msgDeleteFail =>
    { db with channels := db.channels.filter (fun c => c.id != channelID) }
  | .ok =>
    { db with
      channels := db.channels.filter (fun c => c.id != channelID),
      messages := db.messages.filter (fun m => m.channelID != channelID) }

/-- The slice of the external `bindings.DMClient` API used by the DM
JavaScript wrapper: `IsBlocked` on one sender's public key, and the set of
blocked senders that the documentation of `GetBlockedSenders` promises. -/
structure DMClientApi where
  isBlocked : Bytes → Bool
  blockedSenders : List Bytes

/-- A value returned to JavaScript by the DM wrapper methods: either a plain
boolean or a JSON-marshalled array of public keys. -/
inductive JsReturn where
  | boolean : Bool → JsReturn
  | jsonArray : List Bytes → JsReturn
deriving DecidableEq, Repr

/-- Model of `DMClient.IsBlocked`: `dmc.api.IsBlocked(utils.CopyBytesToGo(args[0]))`. -/
def DMClientIsBlocked (api : DMClientApi) (args : List Bytes) : Bool :=
  api.isBlocked (args.headD [])

/-- Model of `DMClient.GetBlockedSenders` as written:
`return dmc.api.IsBlocked(utils.CopyBytesToGo(args[0]))` — a boolean. -/
def DMClientGetBlockedSenders (api : DMClientApi) (args : List Bytes) :
    JsReturn :=
  .boolean (api.isBlocked (args.headD []))

/-- Modelled from the spec: the behaviour promised by the doc comment of
`GetBlockedSenders` ("returns the ED25519 public keys of all senders who are
blocked by this user", as a JSON array), which is not what the body does. -/
def DMClientGetBlockedSendersDocumented (api : DMClientApi) : JsReturn :=
  .jsonArray api.blockedSenders

/-- Whether a store result is a success. -/
def exceptOk (e : Except DbErr Nat) : Bool :=
  match e with
  | .ok _ => true
  | .error _ => false

/-! ### Sample concrete values used by witnesses and counterexamples -/

/-- A sample stored row with the given protocol message identifier and
numeric identifier. -/
def sampleMsg (mid : Bytes) (uuid : Nat) : Message :=
  { id := uuid
    messageID := mid
    nickname := "alice"
    channelID := [9]
    parentMessageID := none
    timestamp := 3
    lease := ['4']
    status := 0
    hidden := false
    pinned := false
    text := [7]
    mtype := 1
    round := 2
    pubkey := [5]
    dmToken := 0
    codesetVersion := 0 }

/-- A sample database with one stored message. -/
def sampleDB1 : DB :=
  { channels := [], messages := [sampleMsg [1, 2] 1], nextId := 2 }

/-- A sample database with two stored messages carrying distinct protocol
message identifiers. -/
def sampleDB2 : DB :=
  { channels := [], messages := [sampleMsg [1, 2] 1, sampleMsg [8, 8] 2],
    nextId := 3 }

/-! ### List helper lemmas -/

theorem find?_filter_of_imp {α} (l : List α) (p q : α → Bool)
    (h : ∀ x, p x = true → q x = true) :
    (l.filter q).find? p = l.find? p := by
  induction l with
  | nil => rfl
  | cons a l ih =>
    by_cases hq : q a
    · by_cases hp : p a <;> simp [List.filter, hq, List.find?, hp, ih]
    · have hp : ¬ p a = true := fun hpa => hq (h a hpa)
      simp [List.filter, hq, List.find?, hp, ih]

theorem find?_append_of_none {α} (p : α → Bool) (l1 l2 : List α)
    (h : l1.find? p = none) : (l1 ++ l2).find? p = l2.find? p := by
  rw [List.find?_append, h, Option.none_or]

theorem countP_eq_one_of_mem_of_pairwise (l : List Message) (mid : Bytes)
    (hp : l.Pairwise (fun a b => a.messageID ≠ b.messageID))
    (r0 : Message) (hm : r0 ∈ l) (hmid : r0.messageID = mid) :
    l.countP (fun r => r.messageID == mid) = 1 := by
  induction l with
  | nil => cases hm
  | cons a l ih =>
    rcases List.pairwise_cons.mp hp with ⟨ha, hl⟩
    rcases List.mem_cons.mp hm with rfl | hm'
    · have : l.countP (fun r => r.messageID == mid) = 0 := by
        refine List.countP_eq_zero.mpr fun x hx hbeq => ?_
        exact ha x hx (hmid ▸ (beq_iff_eq.mp hbeq).symm)
      simp [List.countP_cons, hmid, this]
    · have hane : ¬ (a.messageID == mid) = true := fun hbeq =>
        ha r0 hm' (by rw [beq_iff_eq.mp hbeq, hmid])
      simp [List.countP_cons, hane, ih hl hm']

theorem find?_eq_some_self_of_pairwise (l : List Message) (mid : Bytes)
    (hp : l.Pairwise (fun a b => a.messageID ≠ b.messageID))
    (r0 : Message) (hm : r0 ∈ l) (hmid : r0.messageID = mid) :
    l.find? (fun r => r.messageID == mid) = some r0 := by
  induction l with
  | nil => cases hm
  | cons a l ih =>
    rcases List.pairwise_cons.mp hp with ⟨ha, hl⟩
    rcases List.mem_cons.mp hm with rfl | hm'
    · simp [List.find?, hmid]
    · have hane : ¬ (a.messageID == mid) = true := fun hbeq =>
        ha r0 hm' (by rw [beq_iff_eq.mp hbeq, hmid])
      simpa [List.find?, hane] using ih hl hm'

theorem mem_eq_of_pairwise_mid (l : List Message)
    (hp : l.Pairwise (fun a b => a.messageID ≠ b.messageID))
    (x y : Message) (hx : x ∈ l) (hy : y ∈ l)
    (hmid : x.messageID = y.messageID) : x = y := by
  induction l with
  | nil => cases hx
  | cons a t ih =>
    rcases List.pairwise_cons.mp hp with ⟨ha, ht⟩
    rcases List.mem_cons.mp hx with rfl | hx2
    · rcases List.mem_cons.mp hy with rfl | hy2
      · rfl
      · exact absurd hmid (ha y hy2)
    · rcases List.mem_cons.mp hy with rfl | hy2
      · exact absurd hmid.symm (ha x hx2)
      · exact ih ht hx2 hy2

theorem receiveHelper_update_frame (db : DB) (nm : Message)
    (hany : db.messages.any
      (fun r => r.messageID == nm.messageID && r.id != nm.id) = false) :
    receiveHelper db nm true false false
      = ({ db with
           messages := db.messages.filter (fun r => r.id != nm.id) ++ [nm],
           nextId := max db.nextId (nm.id + 1) }, .ok nm.id) := by
  have hput : putMessage db nm true false =
      ({ db with
         messages := db.messages.filter (fun r => r.id != nm.id) ++ [nm],
         nextId := max db.nextId (nm.id + 1) }, .ok nm.id) := by
    unfold putMessage
    simp [hany]
  unfold receiveHelper
  rw [hput]

theorem find?_update_self (l : List Message) (nm : Message) :
    (l.filter (fun r => r.id != nm.id) ++ [nm]).find?
      (fun r => r.id == nm.id) = some nm := by
  rw [find?_append_of_none]
  · simp
  · refine List.find?_eq_none.mpr fun x hx hbeq => ?_
    rcases List.mem_filter.mp hx with ⟨-, hne⟩
    exact absurd (beq_iff_eq.mp hbeq) (bne_iff_ne.mp hne)

theorem find?_update_other (l : List Message) (nm : Message) (k : Nat)
    (hk : k ≠ nm.id) :
    (l.filter (fun r => r.id != nm.id) ++ [nm]).find?
      (fun r => r.id == k) = l.find? (fun r => r.id == k) := by
  rw [List.find?_append]
  have hone : ([nm].find? (fun r => r.id == k)) = none := by
    refine List.find?_eq_none.mpr fun x hx hbeq => ?_
    rcases List.mem_singleton.mp hx with rfl
    exact hk (beq_iff_eq.mp hbeq).symm
  rw [hone, Option.or_none]
  exact find?_filter_of_imp _ _ _ fun x hx => by
    have hxk : x.id = k := beq_iff_eq.mp hx
    exact bne_iff_ne.mpr (hxk ▸ hk)

/-! ### Claim theorems -/

/-- C3: after `LeaveChannel(C)` completes successfully, no `Message` row
whose channel-index value equals `C` remains in the message store, for every
prior store state. -/
theorem leaveChannel_cascade_deletes_all_channel_messages
    (db : DB) (c : Bytes) :
    ((LeaveChannel db c .ok).messages.countP
      (fun m => m.channelID == c)) = 0 := by
  refine List.countP_eq_zero.mpr fun m hm hbeq => ?_
  rcases List.mem_filter.mp hm with ⟨-, hne⟩
  rw [bne_iff_ne] at hne
  exact hne (beq_iff_eq.mp hbeq)

/-- C6: if deleting the `Channel` row fails, `LeaveChannel` does not attempt
the cascading message deletion: the whole store — in particular the message
store — is left exactly as it was. -/
theorem leaveChannel_aborts_cascade_on_channel_delete_failure (db : DB) (c : Bytes) :
    (LeaveChannel db c .chanDeleteFail).messages = db.messages ∧
    LeaveChannel db c .chanDeleteFail = db :=
  ⟨rfl, rfl⟩

/-- C9: `DMClient.GetBlockedSenders` returns exactly the boolean that
`DMClient.IsBlocked` returns on the same first argument, and never the
JSON array of all blocked senders' public keys that its documentation
(modelled by `DMClientGetBlockedSendersDocumented`) promises. -/
theorem getBlockedSenders_returns_isBlocked (api : DMClientApi)
    (args : List Bytes) :
    DMClientGetBlockedSenders api args
      = JsReturn.boolean (DMClientIsBlocked api args) ∧
    (∀ l, DMClientGetBlockedSenders api args ≠ JsReturn.jsonArray l) ∧
    (∀ l, DMClientGetBlockedSendersDocumented api = JsReturn.jsonArray l →
      l = api.blockedSenders) := by
  refine ⟨rfl, fun l h => ?_, fun l h => ?_⟩
  · exact JsReturn.noConfusion h
  · cases h; rfl

/-- C10: the helpers `Get` and `GetIndex` never return a nil error together
with an undefined value (an undefined lookup result always becomes the
does-not-exist error), and consequently the undefined-result branch of
`msgIDLookup` (the `"no message for ... found"` error) is unreachable. -/
theorem get_helpers_never_ok_undefined (db : DB) (key : Nat) (mid : Bytes)
    (f g : Bool) :
    rawGet db key f ≠ Except.ok none ∧
    rawGetIndex db mid g ≠ Except.ok none ∧
    msgIDLookup db mid g ≠ Except.error DbErr.noMessageFound := by
  refine ⟨?_, ?_, ?_⟩
  · unfold rawGet
    split
    · exact fun h => Except.noConfusion h
    · split <;> intro h <;> simp_all
  · unfold rawGetIndex
    split
    · exact fun h => Except.noConfusion h
    · split <;> intro h <;> simp_all
  · unfold msgIDLookup rawGetIndex
    by_cases hg : g = true
    · simp [hg]
    · cases h : getByMessageID db mid <;> simp [hg, h]

/-- C2 (failing input): on an empty store, `ReceiveReply` of a reply with
`hidden = true` succeeds (numeric identifier 1), but `GetMessage` on its
protocol message identifier returns the record with `hidden = false` and
`pinned = true`: `ReceiveReply` passes its `hidden` argument into
`buildMessage`'s `pinned` parameter and a literal `false` into `hidden`, so
the round trip does not preserve the hidden flag for replies, contradicting
the claim (and the behaviour of `ReceiveMessage` and `ReceiveReaction`,
which pass `(false, hidden)` correctly). -/
theorem receiveReply_swaps_hidden_and_pinned :
    (ReceiveReply emptyDB none [9] [1, 2] [3, 4] "alice" [7] [5] 0 0 3 4 2 1
        0 true false false).uuid = 1 ∧
    ((GetMessage (ReceiveReply emptyDB none [9] [1, 2] [3, 4] "alice" [7] [5]
        0 0 3 4 2 1 0 true false false).db [1, 2] false).toOption.map
      (fun mm => (mm.hidden, mm.pinned))) = some (false, true) := by
  constructor <;> rfl

/-- C5 (counterexample): a `ReceiveMessage` whose underlying write fails
(injected put fault; the store is unchanged and the returned identifier
is 0) still dispatches a "message received" notification — carrying
identifier 0 — so a notification is not dispatched "only when the
underlying write succeeds". -/
theorem receive_notifies_even_on_failed_write :
    (ReceiveMessage emptyDB none [9] [1, 2] "alice" [7] [5] 0 0 3 4 2 1 0
        true true false).db = emptyDB ∧
    (ReceiveMessage emptyDB none [9] [1, 2] "alice" [7] [5] 0 0 3 4 2 1 0
        true true false).uuid = 0 ∧
    (ReceiveMessage emptyDB none [9] [1, 2] "alice" [7] [5] 0 0 3 4 2 1 0
        true true false).events = [⟨0, [9], false⟩] := by
  refine ⟨rfl, rfl, rfl⟩

/-- C4 (counterexample): on a store holding row 1 (protocol identifier
`[1,2]`) and row 2 (protocol identifier `[8,8]`), `UpdateFromUUID` of row 1
with the patch `{messageID := [8,8]}` changes nothing at all: the re-insert
violates the unique index, the fall-through lookup returns row 2's
identifier, and the targeted row keeps its old protocol message identifier —
the patch-present field is not applied, contradicting the claim. -/
theorem updateFromUUID_messageID_collision_counterexample :
    (UpdateFromUUID sampleDB2 1 { messageID := some [8, 8] }
        false false false).1 = sampleDB2 ∧
    ((getById (UpdateFromUUID sampleDB2 1 { messageID := some [8, 8] }
        false false false).1 1).map (fun r => r.messageID)) = some [1, 2] ∧
    (UpdateFromUUID sampleDB2 1 { messageID := some [8, 8] }
        false false false).2 = [⟨2, [9], true⟩] := by
  refine ⟨rfl, rfl, rfl⟩

/-- C1: calling receive (`receiveHelper` with `isUpdate = false`) twice with
the same protocol message identifier, on any well-formed store and for any
two (possibly different) message bodies carrying that identifier, returns
the same numeric identifier both times — the second call's unique-constraint
violation is recovered by the secondary-index lookup, not surfaced — and
leaves exactly one row for that identifier. -/
theorem receive_idempotent_under_duplicate_id (db : DB) (m1 m2 : Message)
    (hwf : WF db) (hmid : m1.messageID = m2.messageID) :
    (receiveHelper db m1 false false false).2
      = (receiveHelper (receiveHelper db m1 false false false).1 m2
          false false false).2
    ∧ exceptOk (receiveHelper db m1 false false false).2 = true
    ∧ ((receiveHelper (receiveHelper db m1 false false false).1 m2
          false false false).1.messages.countP
        (fun r => r.messageID == m1.messageID)) = 1 := by
  obtain ⟨hnext, hids, hpw⟩ := hwf
  have hpwmid : db.messages.Pairwise (fun a b => a.messageID ≠ b.messageID) :=
    hpw.imp fun h => h.2
  by_cases hdup : db.messages.any (fun r => r.messageID == m1.messageID) = true
  · obtain ⟨r0, hr0mem, hr0beq⟩ := List.any_eq_true.mp hdup
    have hr0mid : r0.messageID = m1.messageID := beq_iff_eq.mp hr0beq
    have hr0id : r0.id ≠ 0 := by
      have := (hids r0 hr0mem).1; omega
    have hfind1 : db.messages.find? (fun r => r.messageID == m1.messageID)
        = some r0 :=
      find?_eq_some_self_of_pairwise _ _ hpwmid r0 hr0mem hr0mid
    have hrh : ∀ m : Message, m.messageID = m1.messageID →
        receiveHelper db m false false false = (db, .ok r0.id) := by
      intro m hm
      have hdupm : db.messages.any (fun r => r.messageID == m.messageID)
          = true := by rw [hm]; exact hdup
      have hput : putMessage db m false false = (db, .uniqueErr) := by
        unfold putMessage; simp [hdupm]
      have hlk : msgIDLookup db m.messageID false = .ok r0 := by
        unfold msgIDLookup rawGetIndex getByMessageID
        rw [hm]
        simp [hfind1]
      unfold receiveHelper
      rw [hput]
      simp [hlk, hr0id]
    have h1 := hrh m1 rfl
    have h2 := hrh m2 hmid.symm
    rw [h1]
    simp only
    rw [h2]
    exact ⟨rfl, rfl,
      countP_eq_one_of_mem_of_pairwise _ _ hpwmid r0 hr0mem hr0mid⟩
  · have hdupf : db.messages.any (fun r => r.messageID == m1.messageID)
        = false := eq_false_of_ne_true hdup
    have hput1 : putMessage db m1 false false =
        ({ db with
           messages := db.messages ++ [{ m1 with id := db.nextId }],
           nextId := db.nextId + 1 }, .ok db.nextId) := by
      unfold putMessage; simp [hdupf]
    have h1 : receiveHelper db m1 false false false =
        ({ db with
           messages := db.messages ++ [{ m1 with id := db.nextId }],
           nextId := db.nextId + 1 }, .ok db.nextId) := by
      unfold receiveHelper; rw [hput1]
    have hnone : db.messages.find? (fun r => r.messageID == m2.messageID)
        = none := by
      refine List.find?_eq_none.mpr fun x hx hbeq => ?_
      have hx1 : db.messages.any (fun r => r.messageID == m1.messageID)
          = true :=
        List.any_eq_true.mpr ⟨x, hx, by rw [hmid]; exact hbeq⟩
      rw [hdupf] at hx1
      exact Bool.noConfusion hx1
    have hdup2 :
        (db.messages ++ [{ m1 with id := db.nextId }]).any
          (fun r => r.messageID == m2.messageID) = true := by
      refine List.any_eq_true.mpr ⟨{ m1 with id := db.nextId }, ?_, ?_⟩
      · simp
      · simp [hmid]
    have hfind2 :
        (db.messages ++ [{ m1 with id := db.nextId }]).find?
          (fun r => r.messageID == m2.messageID)
          = some { m1 with id := db.nextId } := by
      rw [find?_append_of_none _ _ _ hnone]
      simp [hmid]
    have h2 : receiveHelper
        ({ db with
           messages := db.messages ++ [{ m1 with id := db.nextId }],
           nextId := db.nextId + 1 }) m2 false false false =
        ({ db with
           messages := db.messages ++ [{ m1 with id := db.nextId }],
           nextId := db.nextId + 1 }, .ok db.nextId) := by
      have hput2 : putMessage
          ({ db with
             messages := db.messages ++ [{ m1 with id := db.nextId }],
             nextId := db.nextId + 1 }) m2 false false =
          ({ db with
             messages := db.messages ++ [{ m1 with id := db.nextId }],
             nextId := db.nextId + 1 }, .uniqueErr) := by
        unfold putMessage; simp [hdup2]
      have hlk2 : msgIDLookup
          ({ db with
             messages := db.messages ++ [{ m1 with id := db.nextId }],
             nextId := db.nextId + 1 }) m2.messageID false
          = .ok { m1 with id := db.nextId } := by
        unfold msgIDLookup rawGetIndex getByMessageID
        simp only
        rw [hfind2]
        simp
      unfold receiveHelper
      rw [hput2]
      simp [hlk2, show db.nextId ≠ 0 by omega]
    rw [h1]
    simp only
    rw [h2]
    refine ⟨rfl, rfl, ?_⟩
    rw [List.countP_append]
    have hz : db.messages.countP (fun r => r.messageID == m1.messageID)
        = 0 := by
      refine List.countP_eq_zero.mpr fun x hx hbeq => ?_
      have hx1 : db.messages.any (fun r => r.messageID == m1.messageID)
          = true := List.any_eq_true.mpr ⟨x, hx, hbeq⟩
      rw [hdupf] at hx1
      exact Bool.noConfusion hx1
    simp [hz, List.countP_cons]

/-- Witness for `receive_idempotent_under_duplicate_id` at a concrete
input: the empty store and twice the same message. -/
theorem receive_idempotent_witness :
    (receiveHelper emptyDB (sampleMsg [1, 2] 0) false false false).2
      = (receiveHelper
          (receiveHelper emptyDB (sampleMsg [1, 2] 0) false false false).1
          (sampleMsg [1, 2] 0) false false false).2
    ∧ exceptOk
        (receiveHelper emptyDB (sampleMsg [1, 2] 0) false false false).2
        = true
    ∧ ((receiveHelper
          (receiveHelper emptyDB (sampleMsg [1, 2] 0) false false false).1
          (sampleMsg [1, 2] 0) false false false).1.messages.countP
        (fun r => r.messageID == (sampleMsg [1, 2] 0).messageID)) = 1 :=
  receive_idempotent_under_duplicate_id emptyDB (sampleMsg [1, 2] 0)
    (sampleMsg [1, 2] 0) (by decide) rfl

/-- C4 (amended): provided the patch's protocol message identifier, when
present, is not held by any other row, `UpdateFromUUID` changes exactly the
patch-present fields of the targeted row — every absent field, every other
field, and the primary key retain their stored values — and leaves every
other row unchanged. (Without that proviso the re-insert violates the
unique index and the targeted row is left fully unchanged, see the
counterexample.) `UpdateFromMessageID` force-sets the `messageID` patch
field to the looked-up identifier itself, which in a well-formed store
equals the targeted row's stored identifier, so it always changes exactly
the present patch fields (its patch carries no `messageID`), retains the
stored protocol message identifier and primary key, leaves every other row
unchanged, and returns the targeted row's numeric identifier. -/
theorem update_applies_exactly_present_patch_fields (db : DB) (uuid : Nat)
    (p : Patch) (cur : Message)
    (hcur : getById db uuid = some cur)
    (hcol : ∀ r ∈ db.messages,
      r.messageID = p.messageID.getD cur.messageID → r.id = uuid) :
    (getById (UpdateFromUUID db uuid p false false false).1 uuid
      = some (applyPatch cur p))
    ∧ (∀ k, k ≠ uuid →
        getById (UpdateFromUUID db uuid p false false false).1 k
          = getById db k)
    ∧ (applyPatch cur p).id = cur.id
    ∧ (applyPatch cur p).nickname = cur.nickname
    ∧ (applyPatch cur p).channelID = cur.channelID
    ∧ (applyPatch cur p).parentMessageID = cur.parentMessageID
    ∧ (applyPatch cur p).lease = cur.lease
    ∧ (applyPatch cur p).text = cur.text
    ∧ (applyPatch cur p).mtype = cur.mtype
    ∧ (applyPatch cur p).pubkey = cur.pubkey
    ∧ (applyPatch cur p).dmToken = cur.dmToken
    ∧ (applyPatch cur p).codesetVersion = cur.codesetVersion
    ∧ (applyPatch cur p).messageID = p.messageID.getD cur.messageID
    ∧ (applyPatch cur p).timestamp = p.timestamp.getD cur.timestamp
    ∧ (applyPatch cur p).round = p.round.getD cur.round
    ∧ (applyPatch cur p).pinned = p.pinned.getD cur.pinned
    ∧ (applyPatch cur p).hidden = p.hidden.getD cur.hidden
    ∧ (applyPatch cur p).status = p.status.getD cur.status
    ∧ (∀ (mid : Bytes) (r : Message), WF db →
        getByMessageID db mid = some r →
        ((UpdateFromMessageID db mid p false false false).2.1 = r.id
        ∧ getById (UpdateFromMessageID db mid p false false false).1 r.id
            = some (applyPatch r { p with messageID := some mid })
        ∧ (∀ k, k ≠ r.id →
            getById (UpdateFromMessageID db mid p false false false).1 k
              = getById db k)
        ∧ (applyPatch r { p with messageID := some mid }).messageID
            = r.messageID
        ∧ (applyPatch r { p with messageID := some mid }).id = r.id
        ∧ (applyPatch r { p with messageID := some mid }).nickname
            = r.nickname
        ∧ (applyPatch r { p with messageID := some mid }).channelID
            = r.channelID
        ∧ (applyPatch r { p with messageID := some mid }).parentMessageID
            = r.parentMessageID
        ∧ (applyPatch r { p with messageID := some mid }).lease = r.lease
        ∧ (applyPatch r { p with messageID := some mid }).text = r.text
        ∧ (applyPatch r { p with messageID := some mid }).mtype = r.mtype
        ∧ (applyPatch r { p with messageID := some mid }).pubkey = r.pubkey
        ∧ (applyPatch r { p with messageID := some mid }).dmToken
            = r.dmToken
        ∧ (applyPatch r { p with messageID := some mid }).codesetVersion
            = r.codesetVersion
        ∧ (applyPatch r { p with messageID := some mid }).timestamp
            = p.timestamp.getD r.timestamp
        ∧ (applyPatch r { p with messageID := some mid }).round
            = p.round.getD r.round
        ∧ (applyPatch r { p with messageID := some mid }).pinned
            = p.pinned.getD r.pinned
        ∧ (applyPatch r { p with messageID := some mid }).hidden
            = p.hidden.getD r.hidden
        ∧ (applyPatch r { p with messageID := some mid }).status
            = p.status.getD r.status)) := by
  have hcurid : cur.id = uuid := by
    have h1 : db.messages.find? (fun r => r.id == uuid) = some cur := hcur
    simpa using List.find?_some h1
  have hnm_id : (applyPatch cur p).id = uuid := hcurid
  have hnm_mid : (applyPatch cur p).messageID
      = p.messageID.getD cur.messageID := rfl
  have hany : db.messages.any (fun r =>
      r.messageID == (applyPatch cur p).messageID
        && r.id != (applyPatch cur p).id) = false := by
    refine eq_false_of_ne_true fun hx => ?_
    obtain ⟨r, hrmem, hrb⟩ := List.any_eq_true.mp hx
    have hb1 : r.messageID = (applyPatch cur p).messageID :=
      beq_iff_eq.mp (Bool.and_elim_left hrb)
    have hb2 : r.id ≠ (applyPatch cur p).id :=
      bne_iff_ne.mp (Bool.and_elim_right hrb)
    exact hb2 ((hcol r hrmem (hnm_mid ▸ hb1)).trans hnm_id.symm)
  have hput : putMessage db (applyPatch cur p) true false =
      ({ db with
         messages := db.messages.filter
             (fun r => r.id != (applyPatch cur p).id)
           ++ [applyPatch cur p],
         nextId := max db.nextId ((applyPatch cur p).id + 1) },
       .ok (applyPatch cur p).id) := by
    unfold putMessage
    simp [hany]
  have hrh : receiveHelper db (applyPatch cur p) true false false =
      ({ db with
         messages := db.messages.filter
             (fun r => r.id != (applyPatch cur p).id)
           ++ [applyPatch cur p],
         nextId := max db.nextId ((applyPatch cur p).id + 1) },
       .ok (applyPatch cur p).id) := by
    unfold receiveHelper
    rw [hput]
  have hup : (UpdateFromUUID db uuid p false false false).1 =
      { db with
        messages := db.messages.filter
            (fun r => r.id != (applyPatch cur p).id)
          ++ [applyPatch cur p],
        nextId := max db.nextId ((applyPatch cur p).id + 1) } := by
    simp [UpdateFromUUID, rawGet, updateMessage, hcur, hrh]
  refine ⟨?_, ?_, rfl, rfl, rfl, rfl, rfl, rfl, rfl, rfl, rfl, rfl, rfl,
    rfl, rfl, rfl, rfl, rfl, ?_⟩
  · rw [hup]
    unfold getById
    simp only
    rw [find?_append_of_none]
    · simp [hnm_id]
    · refine List.find?_eq_none.mpr fun x hx hbeq => ?_
      rcases List.mem_filter.mp hx with ⟨-, hne⟩
      rw [hnm_id] at hne
      exact absurd (beq_iff_eq.mp hbeq) (bne_iff_ne.mp hne)
  · intro k hk
    rw [hup]
    unfold getById
    simp only
    rw [List.find?_append]
    have hone : ([applyPatch cur p].find? (fun r => r.id == k)) = none := by
      refine List.find?_eq_none.mpr fun x hx hbeq => ?_
      rcases List.mem_singleton.mp hx with rfl
      exact hk ((beq_iff_eq.mp hbeq) ▸ hnm_id.symm ▸ rfl)
    rw [hone, Option.or_none]
    rw [hnm_id]
    exact find?_filter_of_imp _ _ _ fun x hx => by
      have : x.id = k := beq_iff_eq.mp hx
      exact bne_iff_ne.mpr (this ▸ hk)
  · intro mid r hwf hr
    obtain ⟨-, -, hpw⟩ := hwf
    have hr1 : db.messages.find? (fun x => x.messageID == mid) = some r := hr
    have hrmem : r ∈ db.messages := List.mem_of_find?_eq_some hr1
    have hrmid : r.messageID = mid := by simpa using List.find?_some hr1
    have hany2 : db.messages.any (fun x =>
        x.messageID
            == (applyPatch r { p with messageID := some mid }).messageID
          && x.id != (applyPatch r { p with messageID := some mid }).id)
        = false := by
      refine eq_false_of_ne_true fun hx => ?_
      obtain ⟨x, hxmem, hxb⟩ := List.any_eq_true.mp hx
      have hb1 : x.messageID
          = (applyPatch r { p with messageID := some mid }).messageID :=
        beq_iff_eq.mp (Bool.and_elim_left hxb)
      have hb2 : x.id
          ≠ (applyPatch r { p with messageID := some mid }).id :=
        bne_iff_ne.mp (Bool.and_elim_right hxb)
      have hxeq : x = r := mem_eq_of_pairwise_mid _
        (hpw.imp fun h => h.2) x r hxmem hrmem (hb1.trans hrmid.symm)
      refine hb2 ?_
      rw [hxeq]
      exact rfl
    have hrh2 := receiveHelper_update_frame db
      (applyPatch r { p with messageID := some mid }) hany2
    have hdb2 : (UpdateFromMessageID db mid p false false false).1 =
        { db with
          messages := db.messages.filter (fun x =>
              x.id != (applyPatch r { p with messageID := some mid }).id)
            ++ [applyPatch r { p with messageID := some mid }],
          nextId := max db.nextId
            ((applyPatch r { p with messageID := some mid }).id + 1) } := by
      simp [UpdateFromMessageID, rawGetIndex, updateMessage, hr, hrh2]
    have hid2 : (UpdateFromMessageID db mid p false false false).2.1
        = (applyPatch r { p with messageID := some mid }).id := by
      simp [UpdateFromMessageID, rawGetIndex, updateMessage, hr, hrh2]
    refine ⟨hid2, ?_, ?_, hrmid.symm, rfl, rfl, rfl, rfl, rfl, rfl, rfl,
      rfl, rfl, rfl, rfl, rfl, rfl, rfl, rfl⟩
    · rw [hdb2]
      unfold getById
      exact find?_update_self db.messages
        (applyPatch r { p with messageID := some mid })
    · intro k hk
      rw [hdb2]
      unfold getById
      exact find?_update_other db.messages
        (applyPatch r { p with messageID := some mid }) k hk

/-- Witness for `update_applies_exactly_present_patch_fields` at concrete
inputs: `UpdateFromUUID` on a one-row store with the patch
`{pinned := true}`, and `UpdateFromMessageID` on a two-row store with the
patch `{status := 1}`. -/
theorem update_patch_witness :
    getById (UpdateFromUUID sampleDB1 1 { pinned := some true }
        false false false).1 1
      = some (applyPatch (sampleMsg [1, 2] 1) { pinned := some true })
    ∧ getById (UpdateFromUUID sampleDB1 1 { pinned := some true }
        false false false).1 2 = getById sampleDB1 2
    ∧ (applyPatch (sampleMsg [1, 2] 1) { pinned := some true }).pinned
        = true
    ∧ (UpdateFromMessageID sampleDB2 [1, 2] { status := some 1 }
        false false false).2.1 = 1
    ∧ getById (UpdateFromMessageID sampleDB2 [1, 2] { status := some 1 }
        false false false).1 1
      = some (applyPatch (sampleMsg [1, 2] 1)
          { messageID := some [1, 2], status := some 1 })
    ∧ getById (UpdateFromMessageID sampleDB2 [1, 2] { status := some 1 }
        false false false).1 2 = getById sampleDB2 2 := by
  have h := update_applies_exactly_present_patch_fields sampleDB1 1
    { pinned := some true } (sampleMsg [1, 2] 1) (by decide) (by decide)
  have h2 := update_applies_exactly_present_patch_fields sampleDB2 1
    { status := some 1 } (sampleMsg [1, 2] 1) (by decide) (by decide)
  have hm :=
    h2.2.2.2.2.2.2.2.2.2.2.2.2.2.2.2.2.2.2 [1, 2] (sampleMsg [1, 2] 1)
      (by decide) (by decide)
  exact ⟨h.1, h.2.1 2 (by decide), by decide, hm.1, hm.2.1,
    hm.2.2.1 2 (by decide)⟩

/-- C7: `GetMessage` on a protocol message identifier with no corresponding
row returns the typed does-not-exist error (never a silent success or an
empty record); on an identifier that has a row in a well-formed store it
returns exactly that row's caller-visible fields (the stored lease string
parsing back to the lease value). -/
theorem getMessage_not_found_or_returns_row (db : DB) (mid : Bytes) :
    ((∀ r ∈ db.messages, r.messageID ≠ mid) →
      GetMessage db mid false = .error .doesNotExist)
    ∧ (∀ r v, WF db → r ∈ db.messages → r.messageID = mid →
        parseLease r.lease = some v →
        GetMessage db mid false = Except.ok
          { uuid := r.id
            nickname := r.nickname
            messageID := mid
            channelID := r.channelID
            parentMessageID := r.parentMessageID
            timestamp := r.timestamp
            lease := v
            status := r.status
            hidden := r.hidden
            pinned := r.pinned
            content := r.text
            mtype := r.mtype
            round := r.round
            pubKey := r.pubkey
            codesetVersion := r.codesetVersion }) := by
  constructor
  · intro habs
    have hnone : db.messages.find? (fun r => r.messageID == mid) = none :=
      List.find?_eq_none.mpr fun x hx hbeq =>
        habs x hx (beq_iff_eq.mp hbeq)
    unfold GetMessage msgIDLookup rawGetIndex getByMessageID
    rw [hnone]
    rfl
  · intro r v hwf hmem hrmid hpl
    obtain ⟨-, -, hpw⟩ := hwf
    have hfind : db.messages.find? (fun x => x.messageID == mid) = some r :=
      find?_eq_some_self_of_pairwise _ _ (hpw.imp fun h => h.2) r hmem hrmid
    unfold GetMessage msgIDLookup rawGetIndex getByMessageID
    rw [hfind]
    simp [hpl]

/-- Witness for `getMessage_not_found_or_returns_row`: the not-found half on
the empty store and the returns-row half on a one-row store, both at the
identifier `[1,2]`. -/
theorem getMessage_witness :
    GetMessage emptyDB [1, 2] false = .error .doesNotExist
    ∧ GetMessage sampleDB1 [1, 2] false = Except.ok
      { uuid := 1, nickname := "alice", messageID := [1, 2],
        channelID := [9], parentMessageID := none, timestamp := 3,
        lease := 4, status := 0, hidden := false, pinned := false,
        content := [7], mtype := 1, round := 2, pubKey := [5],
        codesetVersion := 0 } := by
  refine ⟨(getMessage_not_found_or_returns_row emptyDB [1, 2]).1
    (by decide), ?_⟩
  exact (getMessage_not_found_or_returns_row sampleDB1 [1, 2]).2
    (sampleMsg [1, 2] 1) 4 (by decide) (by decide) (by decide) (by decide)

/-- C8: for each of the three receive operations, on a store holding no row
with the incoming protocol message identifier: with a cipher configured and
encryption succeeding, the freshly stored row's text equals the cipher's
encrypt transform of the input text; with no cipher, it equals the input
text unchanged; and if encryption fails the operation returns 0 without
writing (and without notifying). -/
theorem receive_stores_cipher_wrapped_text (db : DB)
    (cid mid pid : Bytes) (nick : String) (text pk : Bytes)
    (dmT cs : Nat) (ts ls : Int) (rnd mT st : Nat) (hid : Bool)
    (enc : Bytes → Option Bytes) (ct : Bytes)
    (hfresh : ∀ r ∈ db.messages, r.messageID ≠ mid) :
    (enc text = some ct →
      ((ReceiveMessage db (some enc) cid mid nick text pk dmT cs ts ls rnd
          mT st hid false false).db.messages.getLast?).map
        (fun r => (r.messageID, r.text)) = some (mid, ct))
    ∧ (((ReceiveMessage db none cid mid nick text pk dmT cs ts ls rnd
          mT st hid false false).db.messages.getLast?).map
        (fun r => (r.messageID, r.text)) = some (mid, text))
    ∧ (enc text = none →
        ReceiveMessage db (some enc) cid mid nick text pk dmT cs ts ls rnd
          mT st hid false false = ⟨db, 0, []⟩)
    ∧ (enc text = some ct →
      ((ReceiveReply db (some enc) cid mid pid nick text pk dmT cs ts ls rnd
          mT st hid false false).db.messages.getLast?).map
        (fun r => (r.messageID, r.text)) = some (mid, ct))
    ∧ (((ReceiveReply db none cid mid pid nick text pk dmT cs ts ls rnd
          mT st hid false false).db.messages.getLast?).map
        (fun r => (r.messageID, r.text)) = some (mid, text))
    ∧ (enc text = none →
        ReceiveReply db (some enc) cid mid pid nick text pk dmT cs ts ls rnd
          mT st hid false false = ⟨db, 0, []⟩)
    ∧ (enc text = some ct →
      ((ReceiveReaction db (some enc) cid mid pid nick text pk dmT cs ts ls
          rnd mT st hid false false).db.messages.getLast?).map
        (fun r => (r.messageID, r.text)) = some (mid, ct))
    ∧ (((ReceiveReaction db none cid mid pid nick text pk dmT cs ts ls rnd
          mT st hid false false).db.messages.getLast?).map
        (fun r => (r.messageID, r.text)) = some (mid, text))
    ∧ (enc text = none →
        ReceiveReaction db (some enc) cid mid pid nick text pk dmT cs ts ls
          rnd mT st hid false false = ⟨db, 0, []⟩) := by
  have hany : ∀ m : Message, m.messageID = mid →
      db.messages.any (fun r => r.messageID == m.messageID) = false := by
    intro m hm
    refine eq_false_of_ne_true fun hx => ?_
    obtain ⟨r, hrmem, hrb⟩ := List.any_eq_true.mp hx
    exact hfresh r hrmem (hm ▸ beq_iff_eq.mp hrb)
  have hcore : ∀ m : Message, m.messageID = mid →
      receiveHelper db m false false false
        = ({ db with
             messages := db.messages ++ [{ m with id := db.nextId }],
             nextId := db.nextId + 1 }, .ok db.nextId) := by
    intro m hm
    have hput : putMessage db m false false =
        ({ db with
           messages := db.messages ++ [{ m with id := db.nextId }],
           nextId := db.nextId + 1 }, .ok db.nextId) := by
      unfold putMessage
      simp [hany m hm]
    unfold receiveHelper
    rw [hput]
  refine ⟨fun henc => ?_, ?_, fun henc => ?_, fun henc => ?_, ?_,
    fun henc => ?_, fun henc => ?_, ?_, fun henc => ?_⟩
  · have h1 := hcore
      (buildMessage cid mid none nick ct pk dmT cs ts ls rnd mT false hid st)
      rfl
    simp only [buildMessage] at h1
    simp [ReceiveMessage, henc, buildMessage, h1]
  · have h1 := hcore
      (buildMessage cid mid none nick text pk dmT cs ts ls rnd mT false hid
        st) rfl
    simp only [buildMessage] at h1
    simp [ReceiveMessage, buildMessage, h1]
  · simp [ReceiveMessage, henc]
  · have h1 := hcore
      (buildMessage cid mid (some pid) nick ct pk dmT cs ts ls rnd mT hid
        false st) rfl
    simp only [buildMessage] at h1
    simp [ReceiveReply, henc, buildMessage, h1]
  · have h1 := hcore
      (buildMessage cid mid (some pid) nick text pk dmT cs ts ls rnd mT hid
        false st) rfl
    simp only [buildMessage] at h1
    simp [ReceiveReply, buildMessage, h1]
  · simp [ReceiveReply, henc]
  · have h1 := hcore
      (buildMessage cid mid (some pid) nick ct pk dmT cs ts ls rnd mT false
        hid st) rfl
    simp only [buildMessage] at h1
    simp [ReceiveReaction, henc, buildMessage, h1]
  · have h1 := hcore
      (buildMessage cid mid (some pid) nick text pk dmT cs ts ls rnd mT
        false hid st) rfl
    simp only [buildMessage] at h1
    simp [ReceiveReaction, buildMessage, h1]
  · simp [ReceiveReaction, henc]

/-- Witness for `receive_stores_cipher_wrapped_text`: concrete runs on the
empty store with the cipher that prepends a byte, with no cipher, and with
the always-failing cipher. -/
theorem receive_stores_cipher_wrapped_text_witness :
    (((ReceiveMessage emptyDB (some (fun b => some (0 :: b))) [9] [1, 2]
        "alice" [7] [5] 0 0 3 4 2 1 0 true false
        false).db.messages.getLast?).map
      (fun r => (r.messageID, r.text)) = some ([1, 2], [0, 7]))
    ∧ (((ReceiveReply emptyDB none [9] [1, 2] [3, 4] "alice" [7] [5] 0 0 3 4
        2 1 0 true false false).db.messages.getLast?).map
      (fun r => (r.messageID, r.text)) = some ([1, 2], [7]))
    ∧ (ReceiveReaction emptyDB (some (fun _ => none)) [9] [1, 2] [3, 4]
        "alice" [7] [5] 0 0 3 4 2 1 0 true false false
        = ⟨emptyDB, 0, []⟩) := by
  refine ⟨?_, ?_, ?_⟩
  · exact (receive_stores_cipher_wrapped_text emptyDB [9] [1, 2] [3, 4]
      "alice" [7] [5] 0 0 3 4 2 1 0 true (fun b => some (0 :: b)) [0, 7]
      (by decide)).1 rfl
  · exact (receive_stores_cipher_wrapped_text emptyDB [9] [1, 2] [3, 4]
      "alice" [7] [5] 0 0 3 4 2 1 0 true (fun b => some (0 :: b)) [0, 7]
      (by decide)).2.2.2.2.1
  · exact (receive_stores_cipher_wrapped_text emptyDB [9] [1, 2] [3, 4]
      "alice" [7] [5] 0 0 3 4 2 1 0 true (fun _ => none) []
      (by decide)).2.2.2.2.2.2.2.2 rfl

/-- C5 (amended): each of `ReceiveMessage`, `ReceiveReply` and
`ReceiveReaction` dispatches exactly one asynchronous "message received"
notification — carrying the returned identifier, the channel, and a false
update flag — whenever encryption succeeds (or no cipher is set), whether or
not the underlying write succeeds (on a failed write the notification
carries identifier 0); it dispatches none when encryption fails. An update
operation dispatches exactly one notification (with the update flag set)
when its write succeeds and none when the write or the initial read fails.
Dispatch is fire-and-forget (`go`), modelled as emitted events that do not
affect the operation's return value. -/
theorem notification_dispatch_counts (db : DB) (cid mid pid : Bytes)
    (nick : String) (text pk : Bytes) (dmT cs : Nat) (ts ls : Int)
    (rnd mT st : Nat) (hid : Bool) (enc : Bytes → Option Bytes)
    (cur : Message) (p : Patch) (uid : Nat) (pf gf : Bool) :
    ((ReceiveMessage db none cid mid nick text pk dmT cs ts ls rnd mT st hid
        pf gf).events
      = [⟨(ReceiveMessage db none cid mid nick text pk dmT cs ts ls rnd mT
            st hid pf gf).uuid, cid, false⟩])
    ∧ ((enc text).isSome = true →
        (ReceiveMessage db (some enc) cid mid nick text pk dmT cs ts ls rnd
            mT st hid pf gf).events
          = [⟨(ReceiveMessage db (some enc) cid mid nick text pk dmT cs ts
                ls rnd mT st hid pf gf).uuid, cid, false⟩])
    ∧ (enc text = none →
        ReceiveMessage db (some enc) cid mid nick text pk dmT cs ts ls rnd
          mT st hid pf gf = ⟨db, 0, []⟩)
    ∧ ((ReceiveReply db none cid mid pid nick text pk dmT cs ts ls rnd mT st
        hid pf gf).events
      = [⟨(ReceiveReply db none cid mid pid nick text pk dmT cs ts ls rnd mT
            st hid pf gf).uuid, cid, false⟩])
    ∧ ((enc text).isSome = true →
        (ReceiveReply db (some enc) cid mid pid nick text pk dmT cs ts ls
            rnd mT st hid pf gf).events
          = [⟨(ReceiveReply db (some enc) cid mid pid nick text pk dmT cs ts
                ls rnd mT st hid pf gf).uuid, cid, false⟩])
    ∧ (enc text = none →
        ReceiveReply db (some enc) cid mid pid nick text pk dmT cs ts ls rnd
          mT st hid pf gf = ⟨db, 0, []⟩)
    ∧ ((ReceiveReaction db none cid mid pid nick text pk dmT cs ts ls rnd mT
        st hid pf gf).events
      = [⟨(ReceiveReaction db none cid mid pid nick text pk dmT cs ts ls rnd
            mT st hid pf gf).uuid, cid, false⟩])
    ∧ ((enc text).isSome = true →
        (ReceiveReaction db (some enc) cid mid pid nick text pk dmT cs ts ls
            rnd mT st hid pf gf).events
          = [⟨(ReceiveReaction db (some enc) cid mid pid nick text pk dmT cs
                ts ls rnd mT st hid pf gf).uuid, cid, false⟩])
    ∧ (enc text = none →
        ReceiveReaction db (some enc) cid mid pid nick text pk dmT cs ts ls
          rnd mT st hid pf gf = ⟨db, 0, []⟩)
    ∧ ((updateMessage db cur p pf gf).2.2 =
        match (updateMessage db cur p pf gf).2.1 with
        | .ok u => [⟨u, (applyPatch cur p).channelID, true⟩]
        | .error _ => [])
    ∧ ((UpdateFromUUID db uid p true pf gf).2 = []) := by
  refine ⟨?_, fun hs => ?_, fun hn => ?_, ?_, fun hs => ?_, fun hn => ?_,
    ?_, fun hs => ?_, fun hn => ?_, ?_, rfl⟩
  · rcases h : receiveHelper db (buildMessage cid mid none nick text pk dmT
        cs ts ls rnd mT false hid st) false pf gf with ⟨db1, res⟩
    cases res <;> simp [ReceiveMessage, h]
  · obtain ⟨ct, hct⟩ := Option.isSome_iff_exists.mp hs
    rcases h : receiveHelper db (buildMessage cid mid none nick ct pk dmT
        cs ts ls rnd mT false hid st) false pf gf with ⟨db1, res⟩
    cases res <;> simp [ReceiveMessage, hct, h]
  · simp [ReceiveMessage, hn]
  · rcases h : receiveHelper db (buildMessage cid mid (some pid) nick text
        pk dmT cs ts ls rnd mT hid false st) false pf gf with ⟨db1, res⟩
    cases res <;> simp [ReceiveReply, h]
  · obtain ⟨ct, hct⟩ := Option.isSome_iff_exists.mp hs
    rcases h : receiveHelper db (buildMessage cid mid (some pid) nick ct pk
        dmT cs ts ls rnd mT hid false st) false pf gf with ⟨db1, res⟩
    cases res <;> simp [ReceiveReply, hct, h]
  · simp [ReceiveReply, hn]
  · rcases h : receiveHelper db (buildMessage cid mid (some pid) nick text
        pk dmT cs ts ls rnd mT false hid st) false pf gf with ⟨db1, res⟩
    cases res <;> simp [ReceiveReaction, h]
  · obtain ⟨ct, hct⟩ := Option.isSome_iff_exists.mp hs
    rcases h : receiveHelper db (buildMessage cid mid (some pid) nick ct pk
        dmT cs ts ls rnd mT false hid st) false pf gf with ⟨db1, res⟩
    cases res <;> simp [ReceiveReaction, hct, h]
  · simp [ReceiveReaction, hn]
  · rcases h : receiveHelper db (applyPatch cur p) true pf gf with ⟨db1, res⟩
    cases res <;> simp [updateMessage, h]

/-- Witness for `notification_dispatch_counts` at concrete inputs
(empty store, identity-like cipher). -/
theorem notification_dispatch_counts_witness :
    ((ReceiveMessage emptyDB none [9] [1, 2] "alice" [7] [5] 0 0 3 4 2 1 0
        true false false).events
      = [⟨(ReceiveMessage emptyDB none [9] [1, 2] "alice" [7] [5] 0 0 3 4 2
            1 0 true false false).uuid, [9], false⟩])
    ∧ ((ReceiveReply emptyDB (some (fun b => some (0 :: b))) [9] [1, 2]
          [3, 4] "alice" [7] [5] 0 0 3 4 2 1 0 true false false).events
        = [⟨(ReceiveReply emptyDB (some (fun b => some (0 :: b))) [9] [1, 2]
              [3, 4] "alice" [7] [5] 0 0 3 4 2 1 0 true false
              false).uuid, [9], false⟩])
    ∧ (ReceiveReaction emptyDB (some (fun _ => none)) [9] [1, 2] [3, 4]
        "alice" [7] [5] 0 0 3 4 2 1 0 true false false
        = ⟨emptyDB, 0, []⟩) := by
  refine ⟨?_, ?_, ?_⟩
  · exact (notification_dispatch_counts emptyDB [9] [1, 2] [3, 4] "alice"
      [7] [5] 0 0 3 4 2 1 0 true (fun b => some (0 :: b))
      (sampleMsg [1, 2] 1) {} 1 false false).1
  · exact (notification_dispatch_counts emptyDB [9] [1, 2] [3, 4] "alice"
      [7] [5] 0 0 3 4 2 1 0 true (fun b => some (0 :: b))
      (sampleMsg [1, 2] 1) {} 1 false false).2.2.2.2.1 (by decide)
  · exact (notification_dispatch_counts emptyDB [9] [1, 2] [3, 4] "alice"
      [7] [5] 0 0 3 4 2 1 0 true (fun _ => none)
      (sampleMsg [1, 2] 1) {} 1 false false).2.2.2.2.2.2.2.2.1 rfl

end XxdkWasm
